import Mathlib

/-!
Shallow embedding of the chorebot scheduling and rotation engine
(src/data.py and src/main.py) together with proofs of the behavioural
claims about it.

Python strings are modelled as `List Char` (ASCII fragment of CPython
string semantics); Python `int` is `Int`; Python `datetime.date` is a
record of year/month/day integers; fallible code returns `Option` or
carries an explicit error component.
-/

namespace ChoreBot

/-! ## Python string primitives -/

/-- ASCII whitespace recognised by Python `str.strip` / `str.split`. -/
def isSpace (c : Char) : Bool :=
  c = ' ' || c = '\t' || c = '\n' || c = '\r' || c = '\x0b' || c = '\x0c'

/-- Python `str.lower` on the ASCII fragment (maps A..Z to a..z). -/
def pyLower (l : List Char) : List Char := l.map Char.toLower

/-- Python `str.lstrip()`. -/
def lstripWS (l : List Char) : List Char := l.dropWhile isSpace

/-- Python `str.rstrip()`. -/
def rstripWS (l : List Char) : List Char := (l.reverse.dropWhile isSpace).reverse

/-- Python `str.strip()`. -/
def pyStrip (l : List Char) : List Char := rstripWS (lstripWS l)

/-- Python `str.rstrip("s")`: remove every trailing `'s'`. -/
def rstripS (l : List Char) : List Char := (l.reverse.dropWhile (· = 's')).reverse

/-- Accumulator worker for `words`; `cur` holds the current word reversed. -/
def wordsAux (cur : List Char) : List Char → List (List Char)
  | [] => if cur = [] then [] else [cur.reverse]
  | c :: cs =>
    if isSpace c then
      if cur = [] then wordsAux [] cs else cur.reverse :: wordsAux [] cs
    else wordsAux (c :: cur) cs

/-- Python `str.split()` with no argument: split on whitespace runs,
dropping empty pieces. -/
def words (l : List Char) : List (List Char) := wordsAux [] l

/-- Value of an ASCII digit character, if it is one. -/
def digitVal (c : Char) : Option Nat :=
  if '0' ≤ c ∧ c ≤ '9' then some (c.toNat - 48) else none

/-- Fold the remaining digit characters onto an accumulator. -/
def parseDigitsAux (acc : Nat) : List Char → Option Nat
  | [] => some acc
  | c :: cs =>
    match digitVal c with
    | some d => parseDigitsAux (acc * 10 + d) cs
    | none => none

/-- Parse a nonempty all-digit string as a natural number. -/
def parseDigits : List Char → Option Nat
  | [] => none
  | c :: cs =>
    match digitVal c with
    | some d => parseDigitsAux d cs
    | none => none

/-- CPython `int(s)` on an ASCII token: optional sign followed by digits.
(Underscore digit grouping and non-ASCII digits accepted by CPython are
not modelled; they do not change the set of schedules reachable from
parsing, which is what the claims quantify over.) -/
def pyInt (s : List Char) : Option Int :=
  match s with
  | [] => none
  | c :: rest =>
    if c = '-' then (parseDigits rest).map (fun m => -(m : Int))
    else if c = '+' then (parseDigits rest).map (fun m => (m : Int))
    else (parseDigits (c :: rest)).map (fun m => (m : Int))

/-- The ASCII digit character for a digit value. -/
def digitChar (d : Nat) : Char := Char.ofNat (48 + d)

/-- Decimal rendering of a natural number (CPython `str` on `int`,
nonnegative case). -/
def natStr (m : Nat) : List Char :=
  if m = 0 then ['0'] else ((Nat.digits 10 m).reverse).map digitChar

/-- Decimal rendering of an integer (CPython `str` on `int`). -/
def intStr (n : Int) : List Char :=
  if n < 0 then '-' :: natStr n.natAbs else natStr n.toNat

/-! ## ScheduleSpec (src/data.py `FrequencyType`, `Schedule`) -/

inductive FrequencyType where
  | DAILY | DAYS | WEEKLY | MONTHLY | YEARLY
  deriving DecidableEq, Repr

/-- Enum value strings of `FrequencyType` from src/data.py. -/
def FrequencyType.value : FrequencyType → List Char
  | .DAILY => ['d','a','i','l','y']
  | .DAYS => ['d','a','y','s']
  | .WEEKLY => ['w','e','e','k','l','y']
  | .MONTHLY => ['m','o','n','t','h','s']
  | .YEARLY => ['y','e','a','r','s']

structure Schedule where
  frequency_type : FrequencyType
  interval : Int := 1
  deriving DecidableEq, Repr

/-- The `every X days/months/years` branch of `Schedule.from_string`
(src/data.py lines 48-62): requires the lowered, stripped text to start
with `"every "`, at least three whitespace-separated tokens, an integer
second token, and a third token equal to day/month/year after trailing
`'s'` characters are removed. -/
def parseEvery (s : List Char) : Option Schedule :=
  if s.take 6 = ['e','v','e','r','y',' '] then
    match words s with
    | _ :: p1 :: p2 :: _ =>
      match pyInt p1 with
      | some n =>
        let unit := rstripS p2
        if unit = ['d','a','y'] then some ⟨.DAYS, n⟩
        else if unit = ['m','o','n','t','h'] then some ⟨.MONTHLY, n⟩
        else if unit = ['y','e','a','r'] then some ⟨.YEARLY, n⟩
        else none
      | none => none
    | _ => none
  else none

/-- Embeds `Schedule.from_string` (src/data.py lines 27-76). `none` models the
`ValueError` raised when no grammar rule matches. -/
def Schedule.from_string (cs : List Char) : Option Schedule :=
  let s := pyStrip (pyLower cs)
  if s = ['d','a','i','l','y'] then some ⟨.DAILY, 1⟩
  else if s = ['w','e','e','k','l','y'] then some ⟨.WEEKLY, 1⟩
  else if s = ['t','w','i','c','e',' ','a',' ','w','e','e','k'] then some ⟨.DAYS, 3⟩
  else if s = ['e','v','e','r','y',' ','o','t','h','e','r',' ','d','a','y'] then some ⟨.DAYS, 2⟩
  else if s = ['t','w','i','c','e',' ','a',' ','m','o','n','t','h'] then some ⟨.DAYS, 15⟩
  else if s = ['m','o','n','t','h','l','y'] then some ⟨.MONTHLY, 1⟩
  else if s = ['y','e','a','r','l','y'] then some ⟨.YEARLY, 1⟩
  else parseEvery s

/-- Embeds `Schedule.to_string` (src/data.py lines 78-96). -/
def Schedule.to_string (sc : Schedule) : List Char :=
  if sc.frequency_type = .DAILY ∧ sc.interval = 1 then ['d','a','i','l','y']
  else if sc.frequency_type = .WEEKLY ∧ sc.interval = 1 then ['w','e','e','k','l','y']
  else if sc.frequency_type = .DAYS ∧ sc.interval = 2 then
    ['e','v','e','r','y',' ','o','t','h','e','r',' ','d','a','y']
  else if sc.frequency_type = .DAYS ∧ sc.interval = 3 then
    ['t','w','i','c','e',' ','a',' ','w','e','e','k']
  else if sc.frequency_type = .DAYS ∧ sc.interval = 15 then
    ['t','w','i','c','e',' ','a',' ','m','o','n','t','h']
  else if sc.frequency_type = .MONTHLY ∧ sc.interval = 1 then ['m','o','n','t','h','l','y']
  else if sc.frequency_type = .YEARLY ∧ sc.interval = 1 then ['y','e','a','r','l','y']
  else ['e','v','e','r','y',' '] ++ intStr sc.interval ++ ' ' :: sc.frequency_type.value

/-! ## Dates (the fragment of `datetime.date` used by the source) -/

/-- A Python `datetime.date` value: year, month, day attributes. -/
structure Date where
  y : Int
  m : Int
  d : Int
  deriving DecidableEq, Repr

/-- Gregorian leap-year test, as in `calendar.isleap` / `datetime`. -/
def isLeap (y : Int) : Bool :=
  Int.fmod y 4 = 0 ∧ (Int.fmod y 100 ≠ 0 ∨ Int.fmod y 400 = 0)

/-- Number of days in a month (`datetime._days_in_month`). -/
def daysInMonth (y m : Int) : Int :=
  if m = 2 then (if isLeap y then 29 else 28)
  else if m = 4 ∨ m = 6 ∨ m = 9 ∨ m = 11 then 30
  else 31

/-- Days in the year strictly before month `m` (`datetime._days_before_month`). -/
def daysBeforeMonth (y m : Int) : Int :=
  (if m = 1 then 0 else if m = 2 then 31 else if m = 3 then 59
   else if m = 4 then 90 else if m = 5 then 120 else if m = 6 then 151
   else if m = 7 then 181 else if m = 8 then 212 else if m = 9 then 243
   else if m = 10 then 273 else if m = 11 then 304 else 334)
  + (if 2 < m ∧ isLeap y then 1 else 0)

/-- The bounds checked by the `datetime.date` constructor. -/
def validDate (dt : Date) : Prop :=
  1 ≤ dt.y ∧ dt.y ≤ 9999 ∧ 1 ≤ dt.m ∧ dt.m ≤ 12 ∧ 1 ≤ dt.d ∧ dt.d ≤ daysInMonth dt.y dt.m

instance (dt : Date) : Decidable (validDate dt) := by
  unfold validDate; infer_instance

/-- The `datetime.date` constructor: `none` models the `ValueError`
raised on out-of-range components. -/
def mkDate (y m d : Int) : Option Date :=
  if validDate ⟨y, m, d⟩ then some ⟨y, m, d⟩ else none

/-- Embeds `date.toordinal()`: day number with 0001-01-01 as day 1
(`datetime._ymd2ord`). -/
def toOrd (dt : Date) : Int :=
  365 * (dt.y - 1) + Int.fdiv (dt.y - 1) 4 - Int.fdiv (dt.y - 1) 100
    + Int.fdiv (dt.y - 1) 400 + daysBeforeMonth dt.y dt.m + dt.d

/-- Embeds `date.fromordinal` (`datetime._ord2ymd`), transcribed from CPython. -/
def fromOrd (n0 : Int) : Date :=
  let n1 := n0 - 1
  let n400 := Int.fdiv n1 146097
  let r400 := Int.fmod n1 146097
  let n100 := Int.fdiv r400 36524
  let r100 := Int.fmod r400 36524
  let n4 := Int.fdiv r100 1461
  let r4 := Int.fmod r100 1461
  let nY := Int.fdiv r4 365
  let rY := Int.fmod r4 365
  let year := n400 * 400 + 1 + n100 * 100 + n4 * 4 + nY
  if nY = 4 ∨ n100 = 4 then ⟨year - 1, 12, 31⟩
  else
    let leap := nY = 3 ∧ (n4 ≠ 24 ∨ n100 = 3)
    let month := Int.fdiv (rY + 50) 32
    let preceding := daysBeforeMonth (if leap then 4 else 1) month
    if rY < preceding then
      let month' := month - 1
      let preceding' := preceding - daysInMonth (if leap then 4 else 1) month'
      ⟨year, month', rY - preceding' + 1⟩
    else ⟨year, month, rY - preceding + 1⟩

/-- Embeds `date + timedelta(days = k)` (range overflow past year 9999 not modelled). -/
def addDays (dt : Date) (k : Int) : Date := fromOrd (toOrd dt + k)

/-- Embeds `date - timedelta(days = k)`. -/
def subDays (dt : Date) (k : Int) : Date := fromOrd (toOrd dt - k)

/-- Python `date` ordering: lexicographic on (year, month, day). -/
def dateLt (a b : Date) : Prop :=
  a.y < b.y ∨ (a.y = b.y ∧ (a.m < b.m ∨ (a.m = b.m ∧ a.d < b.d)))

instance (a b : Date) : Decidable (dateLt a b) := by
  unfold dateLt; infer_instance

/-- Embeds `Schedule.calculate_next_date` (src/data.py lines 98-115). `none`
models the `ValueError` raised by the `date` constructor when the
computed components are invalid. -/
def Schedule.calculate_next_date (sc : Schedule) (from_date : Date) : Option Date :=
  match sc.frequency_type with
  | .DAILY => some (addDays from_date 1)
  | .DAYS => some (addDays from_date sc.interval)
  | .WEEKLY => some (addDays from_date (7 * sc.interval))
  | .MONTHLY =>
    let nm := from_date.m - 1 + sc.interval
    let new_year := from_date.y + Int.fdiv nm 12
    let new_month := Int.fmod nm 12 + 1
    mkDate new_year new_month from_date.d
  | .YEARLY => mkDate (from_date.y + sc.interval) from_date.m from_date.d

/-! ## Date-string parsing (src/main.py `parse_date`, lines 66-104)

CPython `datetime.strptime` restricted to the 16 format strings the
source tries, modelled as token-list matchers with the same regex
alternation order and backtracking, compiled case-insensitively
(the input is lowered once; format literals and month names are kept
lowercase). -/

inductive FmtTok where
  | day | monthNum | monthAbbr | monthFull | year4 | year2
  | lit (cs : List Char) | ws
  deriving DecidableEq, Repr

def isDigit (c : Char) : Bool := '0' ≤ c ∧ c ≤ '9'

/-- Candidate matches for `%d` in regex alternation order:
two-digit branches `3[01]`, `[12][0-9]`, `0[1-9]` first, then `[1-9]`. -/
def dayCands : List Char → List (Int × List Char)
  | c1 :: c2 :: rest =>
    (if (c1 = '3' ∧ (c2 = '0' ∨ c2 = '1'))
        ∨ ((c1 = '1' ∨ c1 = '2') ∧ isDigit c2)
        ∨ (c1 = '0' ∧ isDigit c2 ∧ c2 ≠ '0') then
      [((10 * ((c1.toNat : Int) - 48) + ((c2.toNat : Int) - 48)), rest)]
    else [])
    ++ (if isDigit c1 ∧ c1 ≠ '0' then [(((c1.toNat : Int) - 48), c2 :: rest)] else [])
  | [c1] => if isDigit c1 ∧ c1 ≠ '0' then [(((c1.toNat : Int) - 48), [])] else []
  | [] => []

/-- Candidate matches for `%m`: `1[0-2]`, `0[1-9]`, then `[1-9]`. -/
def monthCands : List Char → List (Int × List Char)
  | c1 :: c2 :: rest =>
    (if (c1 = '1' ∧ (c2 = '0' ∨ c2 = '1' ∨ c2 = '2'))
        ∨ (c1 = '0' ∧ isDigit c2 ∧ c2 ≠ '0') then
      [((10 * ((c1.toNat : Int) - 48) + ((c2.toNat : Int) - 48)), rest)]
    else [])
    ++ (if isDigit c1 ∧ c1 ≠ '0' then [(((c1.toNat : Int) - 48), c2 :: rest)] else [])
  | [c1] => if isDigit c1 ∧ c1 ≠ '0' then [(((c1.toNat : Int) - 48), [])] else []
  | [] => []

/-- Field `%Y`: exactly four digits. -/
def year4Cand : List Char → List (Int × List Char)
  | c1 :: c2 :: c3 :: c4 :: rest =>
    if isDigit c1 ∧ isDigit c2 ∧ isDigit c3 ∧ isDigit c4 then
      [((1000 * ((c1.toNat : Int) - 48) + 100 * ((c2.toNat : Int) - 48)
          + 10 * ((c3.toNat : Int) - 48) + ((c4.toNat : Int) - 48)), rest)]
    else []
  | _ => []

/-- Field `%y`: exactly two digits; 00-68 maps to 2000-2068, 69-99 to 1969-1999. -/
def year2Cand : List Char → List (Int × List Char)
  | c1 :: c2 :: rest =>
    if isDigit c1 ∧ isDigit c2 then
      let v : Int := 10 * ((c1.toNat : Int) - 48) + ((c2.toNat : Int) - 48)
      [(if v ≤ 68 then 2000 + v else 1900 + v, rest)]
    else []
  | _ => []

def monthAbbrs : List (List Char × Int) :=
  [(['j','a','n'], 1), (['f','e','b'], 2), (['m','a','r'], 3), (['a','p','r'], 4),
   (['m','a','y'], 5), (['j','u','n'], 6), (['j','u','l'], 7), (['a','u','g'], 8),
   (['s','e','p'], 9), (['o','c','t'], 10), (['n','o','v'], 11), (['d','e','c'], 12)]

def monthFulls : List (List Char × Int) :=
  [(['j','a','n','u','a','r','y'], 1), (['f','e','b','r','u','a','r','y'], 2),
   (['m','a','r','c','h'], 3), (['a','p','r','i','l'], 4), (['m','a','y'], 5),
   (['j','u','n','e'], 6), (['j','u','l','y'], 7), (['a','u','g','u','s','t'], 8),
   (['s','e','p','t','e','m','b','e','r'], 9), (['o','c','t','o','b','e','r'], 10),
   (['n','o','v','e','m','b','e','r'], 11), (['d','e','c','e','m','b','e','r'], 12)]

/-- Month-name alternation: the name lists are prefix-free, so at most one
name matches at a given position. -/
def nameCands (names : List (List Char × Int)) (s : List Char) : List (Int × List Char) :=
  names.filterMap (fun p => if s.take p.1.length = p.1 then some (p.2, s.drop p.1.length) else none)

/-- Match a format token list against the (lowered) input, with the
backtracking of the compiled regex; requires a full match. -/
def matchToks : List FmtTok → List Char → Int → Int → Int → Option Date
  | [], s, y, m, d => if s = [] then some ⟨y, m, d⟩ else none
  | tok :: rest, s, y, m, d =>
    match tok with
    | .lit cs => if s.take cs.length = cs then matchToks rest (s.drop cs.length) y m d else none
    | .ws =>
      match s with
      | c :: s' => if isSpace c then matchToks rest (s'.dropWhile isSpace) y m d else none
      | [] => none
    | .day => (dayCands s).findSome? (fun p => matchToks rest p.2 y m p.1)
    | .monthNum => (monthCands s).findSome? (fun p => matchToks rest p.2 y p.1 d)
    | .monthAbbr => (nameCands monthAbbrs s).findSome? (fun p => matchToks rest p.2 y p.1 d)
    | .monthFull => (nameCands monthFulls s).findSome? (fun p => matchToks rest p.2 y p.1 d)
    | .year4 => (year4Cand s).findSome? (fun p => matchToks rest p.2 p.1 m d)
    | .year2 => (year2Cand s).findSome? (fun p => matchToks rest p.2 p.1 m d)

/-- The 16 formats of `parse_date`, in source order. -/
def dateFormats : List (List FmtTok) :=
  [[.day, .lit ['/'], .monthNum, .lit ['/'], .year4],
   [.day, .lit ['/'], .monthNum, .lit ['/'], .year2],
   [.day, .lit ['-'], .monthNum, .lit ['-'], .year4],
   [.day, .lit ['-'], .monthNum, .lit ['-'], .year2],
   [.day, .ws, .monthAbbr, .ws, .year4],
   [.day, .ws, .monthFull, .ws, .year4],
   [.day, .ws, .monthAbbr, .ws, .year2],
   [.day, .ws, .monthFull, .ws, .year2],
   [.day, .lit ['t','h'], .ws, .monthAbbr, .ws, .year4],
   [.day, .lit ['t','h'], .ws, .monthFull, .ws, .year4],
   [.day, .lit ['n','d'], .ws, .monthAbbr, .ws, .year4],
   [.day, .lit ['n','d'], .ws, .monthFull, .ws, .year4],
   [.day, .lit ['r','d'], .ws, .monthAbbr, .ws, .year4],
   [.day, .lit ['r','d'], .ws, .monthFull, .ws, .year4],
   [.day, .lit ['s','t'], .ws, .monthAbbr, .ws, .year4],
   [.day, .lit ['s','t'], .ws, .monthFull, .ws, .year4]]

/-- Embeds `parse_date` (src/main.py lines 66-104): first matching format wins;
the `datetime` constructor's range check is applied per format and a
failure falls through to the next format; no match at all models the
final `ValueError`. -/
def parse_date (s : List Char) : Option Date :=
  dateFormats.findSome? (fun f =>
    (matchToks f (pyLower s) 1900 1 1).bind (fun dt => mkDate dt.y dt.m dt.d))

/-! ## Chores, datastore state and the command operations (src/main.py) -/

structure Chore where
  title : List Char
  schedule : Option Schedule
  assignee : Option String
  due_date : Option Date
  deriving DecidableEq, Repr

structure BotState where
  chores : List Chore
  chore_channel_id : Option Int
  reminder_channel_id : Option Int
  user_emojis : List (String × String)
  deriving DecidableEq, Repr

/-- Embeds `is_chore_scheduled` (src/main.py lines 439-443). -/
def is_chore_scheduled (c : Chore) : Bool := c.schedule.isSome && c.due_date.isSome

/-- Case-insensitive title comparison used by `find_chore_by_title`. -/
def titleMatches (title : List Char) (c : Chore) : Bool :=
  pyLower c.title == pyLower title

/-- Embeds `find_chore_by_title` (src/main.py lines 540-550). -/
def find_chore_by_title (chores : List Chore) (title : List Char) : Option Chore :=
  chores.find? (titleMatches title)

/-- Replace the first chore matching `p` (Python mutates the found object
in place; the object sits at the first matching position of the list). -/
def updateFirst (p : Chore → Bool) (g : Chore → Chore) : List Chore → List Chore
  | [] => []
  | c :: cs => if p c then g c :: cs else c :: updateFirst p g cs

def setFirst (p : Chore → Bool) (c' : Chore) (l : List Chore) : List Chore :=
  updateFirst p (fun _ => c') l

/-- Python dict lookup on the `user_emojis` mapping (insertion-ordered,
unique keys). -/
def lookupEmoji : List (String × String) → String → Option String
  | [], _ => none
  | (k, v) :: rest, u => if k = u then some v else lookupEmoji rest u

inductive OpMsg where
  | setupFirst | wrongChannel | duplicateTitle | noEmoji | scheduleError
  | dateError | notFound | channelMissing | updated | added
  deriving DecidableEq, Repr

structure OpResult where
  state : BotState
  saves : List (List Chore)
  msg : OpMsg
  deriving DecidableEq, Repr

/-- Embeds `add_chore` (src/main.py lines 131-197). `today` is `date.today()`;
`chan_ok` is whether `client.get_channel` resolves the chore channel
(that lookup happens after the append and the save). Each entry of
`saves` is the chores snapshot written by one `save_to_file` call. -/
def add_chore (st : BotState) (ichannel : Int) (title : List Char) (assignee : String)
    (start_date : Option (List Char)) (schedule : Option (List Char)) (today : Date)
    (chan_ok : Bool) : OpResult :=
  if st.chore_channel_id = some 0 then ⟨st, [], .setupFirst⟩
  else if st.chore_channel_id ≠ some ichannel then ⟨st, [], .wrongChannel⟩
  else if (find_chore_by_title st.chores title).isSome then ⟨st, [], .duplicateTitle⟩
  else if (lookupEmoji st.user_emojis assignee).isNone then ⟨st, [], .noEmoji⟩
  else
    let parsedSchedule : Option (Option Schedule) :=
      match schedule with
      | none => some none
      | some sstr =>
        match Schedule.from_string sstr with
        | some sch => some (some sch)
        | none => none
    match parsedSchedule with
    | none => ⟨st, [], .scheduleError⟩
    | some chore_schedule =>
      let parsedStart : Option (Option Date) :=
        match start_date with
        | none => some none
        | some ds =>
          match parse_date ds with
          | some d => if dateLt d today then none else some (some d)
          | none => none
      match parsedStart with
      | none => ⟨st, [], .dateError⟩
      | some start_date_parsed =>
        let chore : Chore := ⟨title, chore_schedule, some assignee, start_date_parsed⟩
        let st' := { st with chores := st.chores ++ [chore] }
        ⟨st', [st'.chores], if chan_ok then .added else .channelMissing⟩

/-- Result of the field-by-field mutation sequence of `edit_chore`
(src/main.py lines 279-306): the chore value carried by a failure is the
partially mutated object left behind when the handler returns early. -/
inductive EditOutcome where
  | ok (c : Chore)
  | failDate (c : Chore)
  | failSchedule (c : Chore)
  deriving DecidableEq, Repr

/-- The due-date patch of `edit_chore` (src/main.py lines 282-293),
applied to the chore after the title patch. Note the source assigns the
parsed date before the past-date check, so that failure leaves the date
already mutated. -/
def editDueField (today : Date) (c₁ : Chore) (new_due_date : Option (List Char)) :
    EditOutcome :=
  match new_due_date with
  | some dd =>
    if dd = ['N','o','n','e'] then .ok { c₁ with due_date := none, schedule := none }
    else
      match parse_date dd with
      | none => .failDate c₁
      | some d =>
        if dateLt d today then .failDate { c₁ with due_date := some d }
        else .ok { c₁ with due_date := some d }
  | none => .ok c₁

/-- The assignee and schedule patches of `edit_chore` (src/main.py lines
295-306). -/
def editTailFields (c₂ : Chore) (new_assignee : Option String)
    (new_schedule : Option (List Char)) : EditOutcome :=
  let c₃ := match new_assignee with | some u => { c₂ with assignee := some u } | none => c₂
  match new_schedule with
  | some ss =>
    if ss = ['N','o','n','e'] then .ok { c₃ with schedule := none }
    else
      match Schedule.from_string ss with
      | none => .failSchedule c₃
      | some sch => .ok { c₃ with schedule := some sch }
  | none => .ok c₃

/-- The title patch of `edit_chore` (src/main.py lines 279-280). -/
def editTitleField (c₀ : Chore) (new_title : Option (List Char)) : Chore :=
  match new_title with | some t => { c₀ with title := t } | none => c₀

def editChoreFields (today : Date) (c₀ : Chore) (new_title : Option (List Char))
    (new_due_date : Option (List Char)) (new_assignee : Option String)
    (new_schedule : Option (List Char)) : EditOutcome :=
  match editDueField today (editTitleField c₀ new_title) new_due_date with
  | .failDate c => .failDate c
  | .failSchedule c => .failSchedule c
  | .ok c₂ => editTailFields c₂ new_assignee new_schedule

/-- Embeds `edit_chore` (src/main.py lines 250-321). A validation failure
returns early with the partially mutated chore still in the registry and
no save performed. -/
def edit_chore (st : BotState) (today : Date) (title : List Char)
    (new_title : Option (List Char)) (new_due_date : Option (List Char))
    (new_assignee : Option String) (new_schedule : Option (List Char)) : OpResult :=
  match find_chore_by_title st.chores title with
  | none => ⟨st, [], .notFound⟩
  | some c₀ =>
    if (match new_assignee with
        | some u => (lookupEmoji st.user_emojis u).isNone
        | none => false) then ⟨st, [], .noEmoji⟩
    else
      match editChoreFields today c₀ new_title new_due_date new_assignee new_schedule with
      | .failDate c =>
        ⟨{ st with chores := setFirst (titleMatches title) c st.chores }, [], .dateError⟩
      | .failSchedule c =>
        ⟨{ st with chores := setFirst (titleMatches title) c st.chores }, [], .scheduleError⟩
      | .ok c =>
        let st' := { st with chores := setFirst (titleMatches title) c st.chores }
        ⟨st', [st'.chores], .updated⟩

/-! ## Rotation (src/main.py `on_raw_reaction_add`, lines 446-485) -/

inductive RotErr where
  | choreNotFound   -- the `raise ValueError` when the title is not in the registry
  | fetchUserNone   -- `client.fetch_user(None)`: no roster member other than the acknowledger
  | invalidNextDate -- `calculate_next_date` raised
  deriving DecidableEq, Repr

structure RotResult where
  state : BotState
  saves : List (List Chore)
  err : Option RotErr
  deriving DecidableEq, Repr

/-- The generator `next((uid for uid in user_emojis if uid != user_id), None)`. -/
def next_assignee_id (user_emojis : List (String × String)) (user_id : String) :
    Option String :=
  (user_emojis.map Prod.fst).find? (fun uid => uid != user_id)

/-- Embeds `on_raw_reaction_add` (src/main.py lines 446-485). `msg_title` is the
first line of the fetched message with the rendered prefix removed (the
external message convention). Each entry of `saves` is the chores
snapshot written by one `save_to_file` call, in call order. -/
def on_raw_reaction_add (st : BotState) (payload_channel : Int) (payload_user : String)
    (payload_emoji : String) (msg_title : List Char) : RotResult :=
  if st.chore_channel_id ≠ some payload_channel then ⟨st, [], none⟩
  else if lookupEmoji st.user_emojis payload_user ≠ some payload_emoji then ⟨st, [], none⟩
  else
    match find_chore_by_title st.chores msg_title with
    | none => ⟨st, [], some .choreNotFound⟩
    | some chore =>
      match next_assignee_id st.user_emojis payload_user with
      | none => ⟨st, [], some .fetchUserNone⟩
      | some nid =>
        let chore₁ := { chore with assignee := some nid }
        let chores₁ := setFirst (titleMatches msg_title) chore₁ st.chores
        -- save_to_file happens here, before the due-date update
        match chore₁.schedule, chore₁.due_date with   -- is_chore_scheduled chore₁
        | some sch, some dd =>
          match sch.calculate_next_date dd with
          | none => ⟨{ st with chores := chores₁ }, [chores₁], some .invalidNextDate⟩
          | some nd =>
            ⟨{ st with chores :=
                 setFirst (titleMatches msg_title) { chore₁ with due_date := some nd } chores₁ },
             [chores₁], none⟩
        | _, _ => ⟨{ st with chores := chores₁ }, [chores₁], none⟩

/-! ## Reminder scan (src/main.py `schedule_reminders` and `send_reminder`) -/

inductive ReminderType where
  | Upcoming | DueToday | Overdue
  deriving DecidableEq, Repr

/-- The reminder date computed in the scan loop (src/main.py lines
420-428): due date minus the per-frequency lead, the due date itself for
daily and N-day schedules. -/
def reminderDate (sc : Schedule) (due : Date) : Date :=
  match sc.frequency_type with
  | .WEEKLY => subDays due 1
  | .MONTHLY => subDays due 3
  | .YEARLY => subDays due 7
  | _ => due

/-- The reminder emissions the loop body decides for one chore
(src/main.py lines 415-436): three independent checks, in source order. -/
def choreEmissions (today : Date) (c : Chore) : List ReminderType :=
  match c.schedule, c.due_date with
  | some sc, some due =>
    (if today = reminderDate sc due then [.Upcoming] else [])
      ++ (if today = due then [.DueToday] else [])
      ++ (if dateLt due today then [.Overdue] else [])
  | _, _ => []

/-- Embeds `send_reminder` (src/main.py lines 365-391). `channel_ok` is whether
`client.get_channel` resolves the reminder channel; `send` is the
external `channel.send`, `false` meaning it raised. The result is
`true` when the coroutine returns normally. A missing channel id or an
unresolvable channel is logged and returns normally. -/
def send_reminder (reminder_channel_id : Option Int) (channel_ok : Int → Bool)
    (send : Chore → ReminderType → Bool) (c : Chore) (rt : ReminderType) : Bool :=
  match reminder_channel_id with
  | none => true
  | some cid => if channel_ok cid then send c rt else true

/-- Send the decided emissions for one chore, stopping at the first
exception: returns the (title, type) pairs sent and whether all calls
returned normally. -/
def sendList (rcid : Option Int) (chok : Int → Bool) (send : Chore → ReminderType → Bool)
    (c : Chore) : List ReminderType → List (List Char × ReminderType) × Bool
  | [] => ([], true)
  | rt :: rest =>
    if send_reminder rcid chok send c rt then
      let r := sendList rcid chok send c rest
      ((c.title, rt) :: r.1, r.2)
    else ([], false)

/-- The per-wake chore loop of `schedule_reminders` (src/main.py lines
415-436). An exception from a send propagates and aborts the whole
loop: the second component is `false` and the remaining chores are not
processed. -/
def scanChores (rcid : Option Int) (chok : Int → Bool)
    (send : Chore → ReminderType → Bool) (today : Date) :
    List Chore → List (List Char × ReminderType) × Bool
  | [] => ([], true)
  | c :: rest =>
    let r := sendList rcid chok send c (choreEmissions today c)
    if r.2 then
      let r' := scanChores rcid chok send today rest
      (r.1 ++ r'.1, r'.2)
    else (r.1, false)

/-- One wake of `schedule_reminders` after the sleep (src/main.py lines
408-436): an unset reminder channel skips the scan with a warning. -/
def scanOnce (st : BotState) (chok : Int → Bool) (send : Chore → ReminderType → Bool)
    (today : Date) : List (List Char × ReminderType) × Bool :=
  if st.reminder_channel_id = none then ([], true)
  else scanChores st.reminder_channel_id chok send today st.chores

/-! ## Wake-time computation (src/main.py lines 399-406) -/

/-- A `datetime` restricted to what the wake computation uses: a date
and the seconds elapsed since its local midnight. -/
structure PyDateTime where
  date : Date
  sec : Int
  deriving DecidableEq, Repr

/-- The instant the loop sleeps until:
`datetime.combine(now.date(), datetime.min.time()) + timedelta(days=1, hours=12)`,
i.e. always 12:00 on the day after `now`. -/
def nextWakeInstant (now : PyDateTime) : PyDateTime :=
  ⟨addDays now.date 1, 12 * 3600⟩

/-- Stated from the claim, for comparison with `nextWakeInstant`: the
earliest local 12:00 strictly after `now`. -/
def claimedNextMidday (now : PyDateTime) : PyDateTime :=
  if now.sec < 12 * 3600 then ⟨now.date, 12 * 3600⟩ else ⟨addDays now.date 1, 12 * 3600⟩

/-- The chore invariant from the spec: a chore cannot hold a schedule
without a due date. -/
def choreInv (c : Chore) : Prop := c.schedule ≠ none → c.due_date ≠ none

instance (c : Chore) : Decidable (choreInv c) := by
  unfold choreInv; infer_instance

/-! ## Helper lemmas -/

theorem updateFirst_forall {P : Chore → Prop} {p : Chore → Bool} {g : Chore → Chore}
    (hg : ∀ x, P x → P (g x)) :
    ∀ {l : List Chore}, (∀ x ∈ l, P x) → ∀ c ∈ updateFirst p g l, P c := by
  intro l
  induction l with
  | nil => intro _ c hc; simp [updateFirst] at hc
  | cons a as ih =>
    intro h c hc
    rw [updateFirst] at hc
    split at hc
    · rcases List.mem_cons.mp hc with rfl | hmem
      · exact hg a (h a (List.mem_cons_self a as))
      · exact h c (List.mem_cons_of_mem a hmem)
    · rcases List.mem_cons.mp hc with rfl | hmem
      · exact h c (List.mem_cons_self c as)
      · exact ih (fun x hx => h x (List.mem_cons_of_mem a hx)) c hmem

theorem setFirst_forall {P : Chore → Prop} {p : Chore → Bool} {c' : Chore}
    (hc' : P c') {l : List Chore} (h : ∀ x ∈ l, P x) :
    ∀ c ∈ setFirst p c' l, P c :=
  updateFirst_forall (fun _ _ => hc') h

/-- When no new schedule is patched, every chore value produced by the
edit field sequence (including the partially mutated ones left by a
validation failure) satisfies the schedule/due-date invariant. -/
theorem editDueField_inv (today : Date) (c₁ : Chore) (ndd : Option (List Char))
    (h : choreInv c₁) :
    ∀ x, (editDueField today c₁ ndd = .ok x ∨ editDueField today c₁ ndd = .failDate x ∨
          editDueField today c₁ ndd = .failSchedule x) → choreInv x := by
  intro x hx
  unfold editDueField at hx
  rcases ndd with _ | dd
  · rcases hx with hx | hx | hx <;> cases hx
    exact h
  · by_cases hnone : dd = ['N','o','n','e']
    · simp only [hnone, if_true] at hx
      rcases hx with hx | hx | hx <;> cases hx
      intro hh; simp at hh
    · cases hpd : parse_date dd with
      | none =>
        simp only [hnone, if_false, hpd] at hx
        rcases hx with hx | hx | hx <;> cases hx
        exact h
      | some d =>
        by_cases hlt : dateLt d today <;>
          · simp only [hnone, if_false, hpd, hlt, if_true, if_false] at hx
            rcases hx with hx | hx | hx <;> cases hx
            intro hh; simp

theorem editTailFields_inv (c₂ : Chore) (na : Option String) (h : choreInv c₂) :
    ∀ x, (editTailFields c₂ na none = .ok x ∨ editTailFields c₂ na none = .failDate x ∨
          editTailFields c₂ na none = .failSchedule x) → choreInv x := by
  intro x hx
  unfold editTailFields at hx
  rcases na with _ | u <;>
    · simp only [] at hx
      rcases hx with hx | hx | hx <;> cases hx
      exact fun hh => h hh

/-- When no new schedule is patched, every chore value produced by the
edit field sequence (including the partially mutated ones left by a
validation failure) satisfies the schedule/due-date invariant. -/
theorem editChoreFields_inv (today : Date) (c₀ : Chore) (nt ndd : Option (List Char))
    (na : Option String) (h : choreInv c₀) :
    ∀ x, (editChoreFields today c₀ nt ndd na none = .ok x ∨
          editChoreFields today c₀ nt ndd na none = .failDate x ∨
          editChoreFields today c₀ nt ndd na none = .failSchedule x) → choreInv x := by
  intro x hx
  have h₁ : choreInv (editTitleField c₀ nt) := by
    unfold editTitleField; cases nt <;> exact fun hh => h hh
  unfold editChoreFields at hx
  set c₁ := editTitleField c₀ nt with hc₁
  rcases hdue : editDueField today c₁ ndd with c₂ | c₂ | c₂ <;> rw [hdue] at hx
  · exact editTailFields_inv c₂ na
      (editDueField_inv today c₁ ndd h₁ c₂ (Or.inl hdue)) x hx
  · rcases hx with hx | hx | hx <;> cases hx
    exact editDueField_inv today c₁ ndd h₁ x (Or.inr (Or.inl hdue))
  · rcases hx with hx | hx | hx <;> cases hx
    exact editDueField_inv today c₁ ndd h₁ x (Or.inr (Or.inr hdue))

/-! ## Decimal rendering round-trips through the integer parser -/

theorem digitVal_digitChar : ∀ d, d < 10 → digitVal (digitChar d) = some d := by decide

theorem digitChar_props : ∀ d, d < 10 →
    Char.toLower (digitChar d) = digitChar d ∧ isSpace (digitChar d) = false
    ∧ digitChar d ≠ '-' ∧ digitChar d ≠ '+' := by decide

theorem parseDigitsAux_map (ds : List Nat) (h : ∀ x ∈ ds, x < 10) :
    ∀ acc, parseDigitsAux acc (ds.map digitChar)
      = some (ds.foldl (fun a x => a * 10 + x) acc) := by
  induction ds with
  | nil => intro acc; rfl
  | cons x t ih =>
    intro acc
    have hx : x < 10 := h x (List.mem_cons_self x t)
    simp only [List.map_cons, parseDigitsAux, digitVal_digitChar x hx, List.foldl_cons]
    exact ih (fun y hy => h y (List.mem_cons_of_mem x hy)) (acc * 10 + x)

theorem foldl_reverse_ofDigits (ds : List Nat) :
    ∀ acc : Nat, ds.reverse.foldl (fun a x => a * 10 + x) acc
      = acc * 10 ^ ds.length + Nat.ofDigits 10 ds := by
  induction ds with
  | nil => intro acc; simp [Nat.ofDigits_nil]
  | cons x t ih =>
    intro acc
    simp only [List.reverse_cons, List.foldl_append, ih, List.foldl_cons, List.foldl_nil,
      Nat.ofDigits_cons, List.length_cons]
    ring

theorem natStr_head (m : Nat) : ∃ x t, natStr m = digitChar x :: t ∧ x < 10 := by
  unfold natStr
  split_ifs with h
  · exact ⟨0, [], by decide, by norm_num⟩
  · have hds : Nat.digits 10 m ≠ [] := Nat.digits_ne_nil_iff_ne_zero.mpr h
    cases hrev : (Nat.digits 10 m).reverse with
    | nil =>
      exact absurd (by simpa using congrArg List.reverse hrev) hds
    | cons x t =>
      refine ⟨x, t.map digitChar, by simp, ?_⟩
      have : x ∈ (Nat.digits 10 m).reverse := by rw [hrev]; exact List.mem_cons_self x t
      exact Nat.digits_lt_base (by norm_num) (List.mem_reverse.mp this)

theorem parseDigits_natStr (m : Nat) : parseDigits (natStr m) = some m := by
  rcases Nat.eq_zero_or_pos m with rfl | hm
  · decide
  · have hne : m ≠ 0 := Nat.pos_iff_ne_zero.mp hm
    have hlt : ∀ x ∈ (Nat.digits 10 m).reverse, x < 10 := fun x hx =>
      Nat.digits_lt_base (by norm_num) (List.mem_reverse.mp hx)
    have hfold : (Nat.digits 10 m).reverse.foldl (fun a x => a * 10 + x) 0 = m := by
      rw [foldl_reverse_ofDigits]
      simp [Nat.ofDigits_digits]
    unfold natStr
    rw [if_neg hne]
    cases hrev : (Nat.digits 10 m).reverse with
    | nil =>
      exact absurd (by simpa using congrArg List.reverse hrev)
        (Nat.digits_ne_nil_iff_ne_zero.mpr hne)
    | cons x t =>
      have hx : x < 10 := hlt x (by rw [hrev]; exact List.mem_cons_self x t)
      simp only [List.map_cons, parseDigits, digitVal_digitChar x hx]
      rw [parseDigitsAux_map t (fun y hy => hlt y (by rw [hrev]; exact List.mem_cons_of_mem x hy)) x]
      rw [hrev] at hfold
      simp only [List.foldl_cons] at hfold
      simpa using congrArg some hfold

theorem natStr_ne_nil (m : Nat) : natStr m ≠ [] := by
  obtain ⟨x, t, hxt, _⟩ := natStr_head m
  simp [hxt]

theorem natStr_props (m : Nat) :
    ∀ c ∈ natStr m, Char.toLower c = c ∧ isSpace c = false := by
  intro c hc
  unfold natStr at hc
  split_ifs at hc with h
  · have : c = '0' := by simpa using hc
    subst this; exact ⟨by decide, by decide⟩
  · obtain ⟨x, hx, rfl⟩ := List.mem_map.mp hc
    have hx10 : x < 10 := Nat.digits_lt_base (by norm_num) (List.mem_reverse.mp hx)
    exact ⟨(digitChar_props x hx10).1, (digitChar_props x hx10).2.1⟩

theorem intStr_props (n : Int) :
    intStr n ≠ [] ∧ ∀ c ∈ intStr n, Char.toLower c = c ∧ isSpace c = false := by
  unfold intStr
  split_ifs with h
  · refine ⟨by simp, ?_⟩
    intro c hc
    rcases List.mem_cons.mp hc with rfl | hc
    · exact ⟨by decide, by decide⟩
    · exact natStr_props _ c hc
  · exact ⟨natStr_ne_nil _, natStr_props _⟩

/-- CPython `int(str(n)) == n` for the rendering and parser fragments
used by the schedule grammar. -/
theorem pyInt_intStr (n : Int) : pyInt (intStr n) = some n := by
  by_cases h : n < 0
  · unfold intStr
    rw [if_pos h]
    simp only [pyInt, if_pos rfl]
    rw [parseDigits_natStr]
    have hn : -((n.natAbs : Nat) : Int) = n := by omega
    exact congrArg some hn
  · unfold intStr
    rw [if_neg h]
    obtain ⟨x, t, hxt, hx⟩ := natStr_head n.toNat
    rw [hxt]
    simp only [pyInt, if_neg (digitChar_props x hx).2.2.1, if_neg (digitChar_props x hx).2.2.2]
    rw [← hxt, parseDigits_natStr]
    have hn : ((n.toNat : Nat) : Int) = n := by omega
    exact congrArg some hn

/-! ## `str.split()` on the rendered schedule strings -/

theorem wordsAux_no_space (w : List Char) (hw : ∀ c ∈ w, isSpace c = false) :
    ∀ (rest cur : List Char), wordsAux cur (w ++ rest) = wordsAux (w.reverse ++ cur) rest := by
  induction w with
  | nil => intro rest cur; simp
  | cons c w' ih =>
    intro rest cur
    have hc : isSpace c = false := hw c (List.mem_cons_self c w')
    simp only [List.cons_append, wordsAux, hc, Bool.false_eq_true, if_false, List.append_eq]
    rw [ih (fun d hd => hw d (List.mem_cons_of_mem c hd)) rest (c :: cur)]
    simp [List.append_assoc]

theorem wordsAux_space (cur rest : List Char) :
    wordsAux cur (' ' :: rest)
      = if cur = [] then wordsAux [] rest else cur.reverse :: wordsAux [] rest := by
  have : isSpace ' ' = true := by decide
  simp [wordsAux, this]

theorem words_every (N u : List Char) (hN : N ≠ []) (hNs : ∀ c ∈ N, isSpace c = false)
    (hu : u ≠ []) (hus : ∀ c ∈ u, isSpace c = false) :
    words (['e','v','e','r','y',' '] ++ N ++ ' ' :: u) = [['e','v','e','r','y'], N, u] := by
  unfold words
  have h1 : (['e','v','e','r','y',' '] : List Char) ++ N ++ ' ' :: u
      = ['e','v','e','r','y'] ++ (' ' :: (N ++ (' ' :: u))) := by simp
  rw [h1, wordsAux_no_space ['e','v','e','r','y'] (by decide)]
  have h2 : (['e','v','e','r','y'] : List Char).reverse ++ [] = ['y','r','e','v','e'] := by
    decide
  rw [h2, wordsAux_space, if_neg (by decide)]
  have h3 : (['y','r','e','v','e'] : List Char).reverse = ['e','v','e','r','y'] := by decide
  rw [h3, wordsAux_no_space N hNs, List.append_nil, wordsAux_space,
    if_neg (by simpa using hN), List.reverse_reverse]
  have h4 : u = u ++ [] := by simp
  rw [h4, wordsAux_no_space u (by simpa using hus)]
  simp only [wordsAux, List.append_nil]
  rw [if_neg (by simpa using hu), List.reverse_reverse]

/-! ## `str.strip()` is the identity on the rendered schedule strings -/

theorem pyStrip_eq_self (a : Char) (mid : List Char) (b : Char)
    (ha : isSpace a = false) (hb : isSpace b = false) :
    pyStrip (a :: (mid ++ [b])) = a :: (mid ++ [b]) := by
  unfold pyStrip lstripWS rstripWS
  rw [List.dropWhile_cons]
  simp only [ha, Bool.false_eq_true, if_false]
  have hrev : (a :: (mid ++ [b])).reverse = b :: (mid.reverse ++ [a]) := by
    simp [List.reverse_cons, List.reverse_append]
  rw [hrev, List.dropWhile_cons]
  simp only [hb, Bool.false_eq_true, if_false]
  rw [← hrev, List.reverse_reverse]

theorem ne_cons_of_head {a b : Char} (h : a ≠ b) (s t : List Char) : a :: s ≠ b :: t := by
  intro he
  injection he with h1 _
  exact h h1

/-- Parsing a rendered `every <N> <unit>` string with a
nonempty, space-free, lowercase-fixed number token: the result is
exactly the integer parse of the token mapped onto the unit's frequency
type — in particular the parse succeeds for any integer token, with no
positivity check. -/
theorem from_string_every_core (N : List Char) (hne : N ≠ [])
    (hsp : ∀ c ∈ N, isSpace c = false) (hlo : pyLower N = N) :
    Schedule.from_string (['e','v','e','r','y',' '] ++ N ++ ' ' :: ['d','a','y','s'])
      = (pyInt N).map (fun n => ⟨.DAYS, n⟩)
    ∧ Schedule.from_string (['e','v','e','r','y',' '] ++ N ++ ' ' :: ['m','o','n','t','h','s'])
      = (pyInt N).map (fun n => ⟨.MONTHLY, n⟩)
    ∧ Schedule.from_string (['e','v','e','r','y',' '] ++ N ++ ' ' :: ['y','e','a','r','s'])
      = (pyInt N).map (fun n => ⟨.YEARLY, n⟩) := by
  refine ⟨?_, ?_, ?_⟩
  · -- unit "days"
    have hlow : pyLower (['e','v','e','r','y',' '] ++ N ++ ' ' :: ['d','a','y','s'])
        = ['e','v','e','r','y',' '] ++ N ++ ' ' :: ['d','a','y','s'] := by
      unfold pyLower at hlo ⊢
      rw [List.map_append, List.map_append, hlo]
      rw [show List.map Char.toLower ['e','v','e','r','y',' '] = ['e','v','e','r','y',' ']
        from by decide]
      rw [show List.map Char.toLower (' ' :: ['d','a','y','s']) = ' ' :: ['d','a','y','s']
        from by decide]
    have hcons : (['e','v','e','r','y',' '] : List Char) ++ N ++ ' ' :: ['d','a','y','s']
        = 'e' :: (['v','e','r','y',' '] ++ N ++ ' ' :: ['d','a','y','s']) := by simp
    have hshape : (['e','v','e','r','y',' '] : List Char) ++ N ++ ' ' :: ['d','a','y','s']
        = 'e' :: ((['v','e','r','y',' '] ++ N ++ [' ','d','a','y']) ++ ['s']) := by simp
    have hstrip : pyStrip (['e','v','e','r','y',' '] ++ N ++ ' ' :: ['d','a','y','s'])
        = ['e','v','e','r','y',' '] ++ N ++ ' ' :: ['d','a','y','s'] := by
      rw [hshape]
      exact pyStrip_eq_self _ _ _ (by decide) (by decide)
    have hother : ¬((['e','v','e','r','y',' '] : List Char) ++ N ++ ' ' :: ['d','a','y','s']
        = ['e','v','e','r','y',' ','o','t','h','e','r',' ','d','a','y']) := by
      intro he
      have he3 : N ++ (' ' :: ['d','a','y','s']) = ['o','t','h','e','r',' ','d','a','y'] := by
        simpa [List.append_assoc] using he
      have he4 : N ++ (' ' :: ['d','a','y','s']) = ['o','t','h','e'] ++ ['r',' ','d','a','y'] := by
        rw [he3]; decide
      have h5 := List.append_inj_right' he4 (by decide)
      exact absurd h5 (by decide)
    have c1 : ¬((['e','v','e','r','y',' '] : List Char) ++ N ++ ' ' :: ['d','a','y','s']
        = ['d','a','i','l','y']) := by
      rw [hcons]; exact ne_cons_of_head (by decide) _ _
    have c2 : ¬((['e','v','e','r','y',' '] : List Char) ++ N ++ ' ' :: ['d','a','y','s']
        = ['w','e','e','k','l','y']) := by
      rw [hcons]; exact ne_cons_of_head (by decide) _ _
    have c3 : ¬((['e','v','e','r','y',' '] : List Char) ++ N ++ ' ' :: ['d','a','y','s']
        = ['t','w','i','c','e',' ','a',' ','w','e','e','k']) := by
      rw [hcons]; exact ne_cons_of_head (by decide) _ _
    have c5 : ¬((['e','v','e','r','y',' '] : List Char) ++ N ++ ' ' :: ['d','a','y','s']
        = ['t','w','i','c','e',' ','a',' ','m','o','n','t','h']) := by
      rw [hcons]; exact ne_cons_of_head (by decide) _ _
    have c6 : ¬((['e','v','e','r','y',' '] : List Char) ++ N ++ ' ' :: ['d','a','y','s']
        = ['m','o','n','t','h','l','y']) := by
      rw [hcons]; exact ne_cons_of_head (by decide) _ _
    have c7 : ¬((['e','v','e','r','y',' '] : List Char) ++ N ++ ' ' :: ['d','a','y','s']
        = ['y','e','a','r','l','y']) := by
      rw [hcons]; exact ne_cons_of_head (by decide) _ _
    unfold Schedule.from_string
    simp only [hlow, hstrip]
    rw [if_neg c1, if_neg c2, if_neg c3, if_neg hother, if_neg c5, if_neg c6, if_neg c7]
    unfold parseEvery
    have htake : ((['e','v','e','r','y',' '] : List Char) ++ N ++ ' ' :: ['d','a','y','s']).take 6
        = ['e','v','e','r','y',' '] := by
      rw [List.append_assoc]
      exact List.take_left' (by decide)
    rw [htake, if_pos rfl, words_every N ['d','a','y','s'] hne hsp (by decide) (by decide)]
    cases hpi : pyInt N with
    | none => simp [hpi]
    | some n => simp [hpi, show rstripS ['d','a','y','s'] = ['d','a','y'] from by decide]
  · -- unit "months"
    have hlow : pyLower (['e','v','e','r','y',' '] ++ N ++ ' ' :: ['m','o','n','t','h','s'])
        = ['e','v','e','r','y',' '] ++ N ++ ' ' :: ['m','o','n','t','h','s'] := by
      unfold pyLower at hlo ⊢
      rw [List.map_append, List.map_append, hlo]
      rw [show List.map Char.toLower ['e','v','e','r','y',' '] = ['e','v','e','r','y',' ']
        from by decide]
      rw [show List.map Char.toLower (' ' :: ['m','o','n','t','h','s'])
        = ' ' :: ['m','o','n','t','h','s'] from by decide]
    have hcons : (['e','v','e','r','y',' '] : List Char) ++ N ++ ' ' :: ['m','o','n','t','h','s']
        = 'e' :: (['v','e','r','y',' '] ++ N ++ ' ' :: ['m','o','n','t','h','s']) := by simp
    have hshape : (['e','v','e','r','y',' '] : List Char) ++ N ++ ' ' :: ['m','o','n','t','h','s']
        = 'e' :: ((['v','e','r','y',' '] ++ N ++ [' ','m','o','n','t','h']) ++ ['s']) := by simp
    have hstrip : pyStrip (['e','v','e','r','y',' '] ++ N ++ ' ' :: ['m','o','n','t','h','s'])
        = ['e','v','e','r','y',' '] ++ N ++ ' ' :: ['m','o','n','t','h','s'] := by
      rw [hshape]
      exact pyStrip_eq_self _ _ _ (by decide) (by decide)
    have hother : ¬((['e','v','e','r','y',' '] : List Char) ++ N ++ ' ' :: ['m','o','n','t','h','s']
        = ['e','v','e','r','y',' ','o','t','h','e','r',' ','d','a','y']) := by
      intro he
      have he3 : N ++ (' ' :: ['m','o','n','t','h','s']) = ['o','t','h','e','r',' ','d','a','y'] := by
        simpa [List.append_assoc] using he
      have he4 : N ++ (' ' :: ['m','o','n','t','h','s'])
          = ['o','t'] ++ ['h','e','r',' ','d','a','y'] := by
        rw [he3]; decide
      have h5 := List.append_inj_right' he4 (by decide)
      exact absurd h5 (by decide)
    have c1 : ¬((['e','v','e','r','y',' '] : List Char) ++ N ++ ' ' :: ['m','o','n','t','h','s']
        = ['d','a','i','l','y']) := by
      rw [hcons]; exact ne_cons_of_head (by decide) _ _
    have c2 : ¬((['e','v','e','r','y',' '] : List Char) ++ N ++ ' ' :: ['m','o','n','t','h','s']
        = ['w','e','e','k','l','y']) := by
      rw [hcons]; exact ne_cons_of_head (by decide) _ _
    have c3 : ¬((['e','v','e','r','y',' '] : List Char) ++ N ++ ' ' :: ['m','o','n','t','h','s']
        = ['t','w','i','c','e',' ','a',' ','w','e','e','k']) := by
      rw [hcons]; exact ne_cons_of_head (by decide) _ _
    have c5 : ¬((['e','v','e','r','y',' '] : List Char) ++ N ++ ' ' :: ['m','o','n','t','h','s']
        = ['t','w','i','c','e',' ','a',' ','m','o','n','t','h']) := by
      rw [hcons]; exact ne_cons_of_head (by decide) _ _
    have c6 : ¬((['e','v','e','r','y',' '] : List Char) ++ N ++ ' ' :: ['m','o','n','t','h','s']
        = ['m','o','n','t','h','l','y']) := by
      rw [hcons]; exact ne_cons_of_head (by decide) _ _
    have c7 : ¬((['e','v','e','r','y',' '] : List Char) ++ N ++ ' ' :: ['m','o','n','t','h','s']
        = ['y','e','a','r','l','y']) := by
      rw [hcons]; exact ne_cons_of_head (by decide) _ _
    unfold Schedule.from_string
    simp only [hlow, hstrip]
    rw [if_neg c1, if_neg c2, if_neg c3, if_neg hother, if_neg c5, if_neg c6, if_neg c7]
    unfold parseEvery
    have htake : ((['e','v','e','r','y',' '] : List Char) ++ N
        ++ ' ' :: ['m','o','n','t','h','s']).take 6 = ['e','v','e','r','y',' '] := by
      rw [List.append_assoc]
      exact List.take_left' (by decide)
    rw [htake, if_pos rfl,
      words_every N ['m','o','n','t','h','s'] hne hsp (by decide) (by decide)]
    cases hpi : pyInt N with
    | none => simp [hpi]
    | some n => simp [hpi, show rstripS ['m','o','n','t','h','s'] = ['m','o','n','t','h'] from by decide]
  · -- unit "years"
    have hlow : pyLower (['e','v','e','r','y',' '] ++ N ++ ' ' :: ['y','e','a','r','s'])
        = ['e','v','e','r','y',' '] ++ N ++ ' ' :: ['y','e','a','r','s'] := by
      unfold pyLower at hlo ⊢
      rw [List.map_append, List.map_append, hlo]
      rw [show List.map Char.toLower ['e','v','e','r','y',' '] = ['e','v','e','r','y',' ']
        from by decide]
      rw [show List.map Char.toLower (' ' :: ['y','e','a','r','s'])
        = ' ' :: ['y','e','a','r','s'] from by decide]
    have hcons : (['e','v','e','r','y',' '] : List Char) ++ N ++ ' ' :: ['y','e','a','r','s']
        = 'e' :: (['v','e','r','y',' '] ++ N ++ ' ' :: ['y','e','a','r','s']) := by simp
    have hshape : (['e','v','e','r','y',' '] : List Char) ++ N ++ ' ' :: ['y','e','a','r','s']
        = 'e' :: ((['v','e','r','y',' '] ++ N ++ [' ','y','e','a','r']) ++ ['s']) := by simp
    have hstrip : pyStrip (['e','v','e','r','y',' '] ++ N ++ ' ' :: ['y','e','a','r','s'])
        = ['e','v','e','r','y',' '] ++ N ++ ' ' :: ['y','e','a','r','s'] := by
      rw [hshape]
      exact pyStrip_eq_self _ _ _ (by decide) (by decide)
    have hother : ¬((['e','v','e','r','y',' '] : List Char) ++ N ++ ' ' :: ['y','e','a','r','s']
        = ['e','v','e','r','y',' ','o','t','h','e','r',' ','d','a','y']) := by
      intro he
      have he3 : N ++ (' ' :: ['y','e','a','r','s']) = ['o','t','h','e','r',' ','d','a','y'] := by
        simpa [List.append_assoc] using he
      have he4 : N ++ (' ' :: ['y','e','a','r','s'])
          = ['o','t','h'] ++ ['e','r',' ','d','a','y'] := by
        rw [he3]; decide
      have h5 := List.append_inj_right' he4 (by decide)
      exact absurd h5 (by decide)
    have c1 : ¬((['e','v','e','r','y',' '] : List Char) ++ N ++ ' ' :: ['y','e','a','r','s']
        = ['d','a','i','l','y']) := by
      rw [hcons]; exact ne_cons_of_head (by decide) _ _
    have c2 : ¬((['e','v','e','r','y',' '] : List Char) ++ N ++ ' ' :: ['y','e','a','r','s']
        = ['w','e','e','k','l','y']) := by
      rw [hcons]; exact ne_cons_of_head (by decide) _ _
    have c3 : ¬((['e','v','e','r','y',' '] : List Char) ++ N ++ ' ' :: ['y','e','a','r','s']
        = ['t','w','i','c','e',' ','a',' ','w','e','e','k']) := by
      rw [hcons]; exact ne_cons_of_head (by decide) _ _
    have c5 : ¬((['e','v','e','r','y',' '] : List Char) ++ N ++ ' ' :: ['y','e','a','r','s']
        = ['t','w','i','c','e',' ','a',' ','m','o','n','t','h']) := by
      rw [hcons]; exact ne_cons_of_head (by decide) _ _
    have c6 : ¬((['e','v','e','r','y',' '] : List Char) ++ N ++ ' ' :: ['y','e','a','r','s']
        = ['m','o','n','t','h','l','y']) := by
      rw [hcons]; exact ne_cons_of_head (by decide) _ _
    have c7 : ¬((['e','v','e','r','y',' '] : List Char) ++ N ++ ' ' :: ['y','e','a','r','s']
        = ['y','e','a','r','l','y']) := by
      rw [hcons]; exact ne_cons_of_head (by decide) _ _
    unfold Schedule.from_string
    simp only [hlow, hstrip]
    rw [if_neg c1, if_neg c2, if_neg c3, if_neg hother, if_neg c5, if_neg c6, if_neg c7]
    unfold parseEvery
    have htake : ((['e','v','e','r','y',' '] : List Char) ++ N
        ++ ' ' :: ['y','e','a','r','s']).take 6 = ['e','v','e','r','y',' '] := by
      rw [List.append_assoc]
      exact List.take_left' (by decide)
    rw [htake, if_pos rfl, words_every N ['y','e','a','r','s'] hne hsp (by decide) (by decide)]
    cases hpi : pyInt N with
    | none => simp [hpi]
    | some n => simp [hpi, show rstripS ['y','e','a','r','s'] = ['y','e','a','r'] from by decide]

/-- Every schedule value reachable from `Schedule.from_string` carries
interval 1 whenever its frequency type is DAILY or WEEKLY. -/
theorem from_string_shape (cs : List Char) (c : Schedule)
    (h : Schedule.from_string cs = some c) :
    (c.frequency_type = .DAILY → c.interval = 1)
    ∧ (c.frequency_type = .WEEKLY → c.interval = 1) := by
  unfold Schedule.from_string at h
  simp only [] at h
  split_ifs at h
  case _ => cases h; exact ⟨fun _ => rfl, by simp⟩
  case _ => cases h; exact ⟨by simp, fun _ => rfl⟩
  case _ => cases h; exact ⟨by simp, by simp⟩
  case _ => cases h; exact ⟨by simp, by simp⟩
  case _ => cases h; exact ⟨by simp, by simp⟩
  case _ => cases h; exact ⟨by simp, by simp⟩
  case _ => cases h; exact ⟨by simp, by simp⟩
  case _ =>
    unfold parseEvery at h
    split_ifs at h
    split at h
    · split at h
      · simp only [] at h
        split_ifs at h <;> (cases h; exact ⟨by simp, by simp⟩)
      · exact absurd h (by simp)
    · exact absurd h (by simp)

/-! ## Claim theorems -/

/-- C1: the claim says the Store save of a rotation happens after the
whole Step 4 mutation, so that the persisted snapshot carries both the
new assignee and the advanced due date. In the code the save sits
between the assignee mutation and the due-date mutation: on the
two-member roster scenario the one snapshot written carries the new
assignee but still the old due date 2025-01-06, while the in-memory
final state has 2025-01-13. -/
theorem C1_save_precedes_due_update :
    on_raw_reaction_add
      ⟨[⟨"dishes".data, some ⟨.WEEKLY, 1⟩, some "A", some ⟨2025, 1, 6⟩⟩],
        some 1, none, [("A", "gA"), ("B", "gB")]⟩ 1 "A" "gA" "dishes".data
    = ⟨⟨[⟨"dishes".data, some ⟨.WEEKLY, 1⟩, some "B", some ⟨2025, 1, 13⟩⟩],
         some 1, none, [("A", "gA"), ("B", "gB")]⟩,
       [[⟨"dishes".data, some ⟨.WEEKLY, 1⟩, some "B", some ⟨2025, 1, 6⟩⟩]],
       none⟩ := by
  decide

/-- C2 counterexample: `add_chore` with a schedule and no start date
creates — and persists — a chore holding a schedule without a due date,
so not every mutating registry operation preserves the invariant. -/
theorem C2_counterexample :
    (add_chore ⟨[], some 1, none, [("A", "gA")]⟩ 1 "dishes".data "A"
        none (some "daily".data) ⟨2025, 1, 5⟩ true).state.chores
      = [⟨"dishes".data, some ⟨.DAILY, 1⟩, some "A", none⟩]
    ∧ ¬ choreInv ⟨"dishes".data, some ⟨.DAILY, 1⟩, some "A", none⟩ := by
  decide

/-- C2 amended: the rotation operation always preserves the invariant
(schedule present implies due date present), and an edit that patches no
new schedule preserves it as well — in particular the explicit due-date
clear clears the schedule in the same mutation; but `add_chore` (and a
schedule-setting edit) can create a chore that violates it. -/
theorem C2_amended :
    (∀ (st : BotState) (pc : Int) (pu pe : String) (mt : List Char),
      (∀ c ∈ st.chores, choreInv c) →
      ∀ c ∈ (on_raw_reaction_add st pc pu pe mt).state.chores, choreInv c)
    ∧ (∀ (st : BotState) (today : Date) (title : List Char)
        (nt ndd : Option (List Char)) (na : Option String),
      (∀ c ∈ st.chores, choreInv c) →
      ∀ c ∈ (edit_chore st today title nt ndd na none).state.chores, choreInv c) := by
  constructor
  · intro st pc pu pe mt hinv c hc
    unfold on_raw_reaction_add at hc
    split at hc
    · exact hinv c hc
    split at hc
    · exact hinv c hc
    split at hc
    · exact hinv c hc
    next chore heq =>
      have hmem : chore ∈ st.chores := List.mem_of_find?_eq_some heq
      have hchore : choreInv chore := hinv chore hmem
      split at hc
      · exact hinv c hc
      next nid _ =>
        have h1 : choreInv { chore with assignee := some nid } := by
          intro h; exact hchore h
        simp only [] at hc
        split at hc
        next sch dd _ _ =>
          split at hc
          · exact setFirst_forall h1 hinv c hc
          next nd _ =>
            refine setFirst_forall ?_ (setFirst_forall h1 hinv) c hc
            intro _; simp
        · exact setFirst_forall h1 hinv c hc
  · intro st today title nt ndd na hinv c hc
    unfold edit_chore at hc
    split at hc
    · exact hinv c hc
    next c₀ heq =>
      have hmem : c₀ ∈ st.chores := List.mem_of_find?_eq_some heq
      have hc₀ : choreInv c₀ := hinv c₀ hmem
      have hfields : ∀ x,
          (editChoreFields today c₀ nt ndd na none = .ok x ∨
           editChoreFields today c₀ nt ndd na none = .failDate x ∨
           editChoreFields today c₀ nt ndd na none = .failSchedule x) → choreInv x :=
        editChoreFields_inv today c₀ nt ndd na hc₀
      split at hc
      · exact hinv c hc
      split at hc
      next x hx =>
        exact setFirst_forall (hfields x (Or.inr (Or.inl hx))) hinv c hc
      next x hx =>
        exact setFirst_forall (hfields x (Or.inr (Or.inr hx))) hinv c hc
      next x hx =>
        exact setFirst_forall (hfields x (Or.inl hx)) hinv c hc

/-- C2 witness: the rotation-preservation half of `C2_amended` applied
to a concrete two-member state whose chores satisfy the invariant. -/
theorem C2_witness :
    (∀ c ∈ ([⟨"dishes".data, some ⟨.WEEKLY, 1⟩, some "A", some ⟨2025, 1, 6⟩⟩] : List Chore),
      choreInv c)
    ∧ (∀ c ∈ (on_raw_reaction_add
        ⟨[⟨"dishes".data, some ⟨.WEEKLY, 1⟩, some "A", some ⟨2025, 1, 6⟩⟩],
          some 1, none, [("A", "gA"), ("B", "gB")]⟩ 1 "A" "gA" "dishes".data).state.chores,
      choreInv c) :=
  ⟨by decide,
   C2_amended.1 ⟨[⟨"dishes".data, some ⟨.WEEKLY, 1⟩, some "A", some ⟨2025, 1, 6⟩⟩],
     some 1, none, [("A", "gA"), ("B", "gB")]⟩ 1 "A" "gA" "dishes".data (by decide)⟩

/-- C3 counterexample: with two overdue scheduled chores and a Notifier
send that raises for the first one, the scan aborts: it returns with
failure, no emission recorded, and the second chore is never processed —
the claim says the failure is caught and the scan continues. -/
theorem C3_counterexample :
    scanOnce
      ⟨[⟨['a'], some ⟨.DAILY, 1⟩, none, some ⟨2025, 1, 1⟩⟩,
        ⟨['b'], some ⟨.DAILY, 1⟩, none, some ⟨2025, 1, 1⟩⟩], some 1, some 9, []⟩
      (fun _ => true) (fun c _ => c.title != ['a']) ⟨2025, 1, 10⟩ = ([], false) := by
  decide

/-- C3 amended: a missing reminder channel is absorbed inside
`send_reminder` (logged, the coroutine returns normally), and a scan in
which no Notifier send raises processes every chore and emits exactly
the decided reminders; but a raising send propagates out of the loop and
aborts the scan (see the counterexample). -/
theorem C3_amended :
    (∀ (chok : Int → Bool) (send : Chore → ReminderType → Bool) (c : Chore)
        (rt : ReminderType), send_reminder none chok send c rt = true)
    ∧ (∀ (rcid : Option Int) (chok : Int → Bool) (send : Chore → ReminderType → Bool)
        (today : Date) (chores : List Chore),
      (∀ c rt, send c rt = true) →
      scanChores rcid chok send today chores
        = (chores.flatMap (fun c => (choreEmissions today c).map (fun rt => (c.title, rt))),
           true)) := by
  constructor
  · intro chok send c rt; rfl
  · intro rcid chok send today chores hsend
    induction chores with
    | nil => rfl
    | cons c rest ih =>
      have hsr : ∀ rt, send_reminder rcid chok send c rt = true := by
        intro rt
        unfold send_reminder
        cases rcid with
        | none => rfl
        | some cid => by_cases h : chok cid <;> simp [h, hsend]
      have hsl : ∀ rts, sendList rcid chok send c rts
          = (rts.map (fun rt => (c.title, rt)), true) := by
        intro rts
        induction rts with
        | nil => rfl
        | cons rt rts ih2 => simp [sendList, hsr, ih2]
      simp [scanChores, hsl, ih]

/-- C3 witness: the no-failure half of `C3_amended` at a concrete
two-chore scan: both overdue reminders are emitted and the scan
completes. -/
theorem C3_witness :
    scanChores (some 9) (fun _ => true) (fun _ _ => true) ⟨2025, 1, 10⟩
      [⟨['a'], some ⟨.DAILY, 1⟩, none, some ⟨2025, 1, 1⟩⟩,
       ⟨['b'], some ⟨.DAILY, 1⟩, none, some ⟨2025, 1, 1⟩⟩]
      = ([(['a'], .Overdue), (['b'], .Overdue)], true) := by
  have h := C3_amended.2 (some 9) (fun _ => true) (fun _ _ => true) ⟨2025, 1, 10⟩
    [⟨['a'], some ⟨.DAILY, 1⟩, none, some ⟨2025, 1, 1⟩⟩,
     ⟨['b'], some ⟨.DAILY, 1⟩, none, some ⟨2025, 1, 1⟩⟩] (fun _ _ => rfl)
  rw [h]
  decide

/-- C4: the claim says an edit failing validation leaves the chore
completely unchanged. In the code the fields are mutated one by one with
early returns: editing `dishes` with a new title and an unparseable due
date reports the date error, performs no save, yet leaves the chore
renamed to `laundry` in the registry. -/
theorem C4_edit_not_atomic :
    edit_chore ⟨[⟨"dishes".data, none, some "A", none⟩], some 1, none, [("A", "gA")]⟩
      ⟨2025, 1, 10⟩ "dishes".data (some "laundry".data) (some "garbage".data) none none
    = ⟨⟨[⟨"laundry".data, none, some "A", none⟩], some 1, none, [("A", "gA")]⟩,
       [], .dateError⟩ := by
  decide

theorem mem_rt_lists (A B C : Prop) [Decidable A] [Decidable B] [Decidable C] :
    (ReminderType.Upcoming ∈ (if A then [ReminderType.Upcoming] else ([] : List ReminderType))
        ++ (if B then [ReminderType.DueToday] else [])
        ++ (if C then [ReminderType.Overdue] else []) ↔ A)
    ∧ (ReminderType.DueToday ∈ (if A then [ReminderType.Upcoming] else ([] : List ReminderType))
        ++ (if B then [ReminderType.DueToday] else [])
        ++ (if C then [ReminderType.Overdue] else []) ↔ B)
    ∧ (ReminderType.Overdue ∈ (if A then [ReminderType.Upcoming] else ([] : List ReminderType))
        ++ (if B then [ReminderType.DueToday] else [])
        ++ (if C then [ReminderType.Overdue] else []) ↔ C) := by
  refine ⟨?_, ?_, ?_⟩ <;> split_ifs <;> simp_all

/-- Membership in the emission list of one chore corresponds exactly to
the three independent checks of the scan loop. -/
theorem mem_choreEmissions (today : Date) (t : List Char) (a : Option String)
    (s : Schedule) (d : Date) :
    (ReminderType.Upcoming ∈ choreEmissions today ⟨t, some s, a, some d⟩
      ↔ today = reminderDate s d)
    ∧ (ReminderType.DueToday ∈ choreEmissions today ⟨t, some s, a, some d⟩ ↔ today = d)
    ∧ (ReminderType.Overdue ∈ choreEmissions today ⟨t, some s, a, some d⟩
      ↔ dateLt d today) := by
  simp only [choreEmissions]
  exact mem_rt_lists _ _ _

/-- C5: for every scheduled chore the scan emits `Upcoming` exactly when
today is the due date minus the lead (1 day for Weekly, 3 for Monthly,
7 for Yearly, 0 — the due date itself — for Daily and N-day schedules),
`DueToday` exactly on the due date, `Overdue` exactly when the due date
is past; and on 2025-01-05 a Weekly(1) chore due 2025-01-06 yields
exactly one `Upcoming` emission and nothing else. -/
theorem C5_reminder_policy :
    (∀ (today : Date) (t : List Char) (a : Option String) (s : Schedule) (d : Date),
      (s.frequency_type = .WEEKLY →
        (ReminderType.Upcoming ∈ choreEmissions today ⟨t, some s, a, some d⟩
          ↔ today = subDays d 1))
      ∧ (s.frequency_type = .MONTHLY →
        (ReminderType.Upcoming ∈ choreEmissions today ⟨t, some s, a, some d⟩
          ↔ today = subDays d 3))
      ∧ (s.frequency_type = .YEARLY →
        (ReminderType.Upcoming ∈ choreEmissions today ⟨t, some s, a, some d⟩
          ↔ today = subDays d 7))
      ∧ ((s.frequency_type = .DAILY ∨ s.frequency_type = .DAYS) →
        (ReminderType.Upcoming ∈ choreEmissions today ⟨t, some s, a, some d⟩
          ↔ today = d))
      ∧ (ReminderType.DueToday ∈ choreEmissions today ⟨t, some s, a, some d⟩ ↔ today = d)
      ∧ (ReminderType.Overdue ∈ choreEmissions today ⟨t, some s, a, some d⟩
        ↔ dateLt d today))
    ∧ choreEmissions ⟨2025, 1, 5⟩ ⟨['x'], some ⟨.WEEKLY, 1⟩, none, some ⟨2025, 1, 6⟩⟩
        = [.Upcoming] := by
  refine ⟨?_, by decide⟩
  intro today t a s d
  obtain ⟨h1, h2, h3⟩ := mem_choreEmissions today t a s d
  refine ⟨?_, ?_, ?_, ?_, h2, h3⟩
  · intro hf; simpa [reminderDate, hf] using h1
  · intro hf; simpa [reminderDate, hf] using h1
  · intro hf; simpa [reminderDate, hf] using h1
  · rintro (hf | hf) <;> simpa [reminderDate, hf] using h1

/-- C5 witness: the Weekly case of `C5_reminder_policy` instantiated at
the concrete scenario of the claim. -/
theorem C5_witness :
    (ReminderType.Upcoming ∈ choreEmissions ⟨2025, 1, 5⟩
        ⟨['x'], some ⟨.WEEKLY, 1⟩, none, some ⟨2025, 1, 6⟩⟩
      ↔ (⟨2025, 1, 5⟩ : Date) = subDays ⟨2025, 1, 6⟩ 1) :=
  (C5_reminder_policy.1 ⟨2025, 1, 5⟩ ['x'] none ⟨.WEEKLY, 1⟩ ⟨2025, 1, 6⟩).1 rfl

/-- C6 counterexample: the claim says the monthly step fails exactly
when the same day does not exist in the target month. With interval
120000 from 2025-01-15 the target is January 12025, where day 15
exists, yet the computation fails because the `date` constructor
rejects years above 9999. -/
theorem C6_counterexample :
    Schedule.calculate_next_date ⟨.MONTHLY, 120000⟩ ⟨2025, 1, 15⟩ = none
    ∧ (1 : Int) ≤ 120000 ∧ validDate ⟨2025, 1, 15⟩
    ∧ 1 ≤ (15 : Int)
    ∧ 15 ≤ daysInMonth (2025 + Int.fdiv (1 - 1 + 120000) 12)
        (Int.fmod (1 - 1 + 120000) 12 + 1) := by
  decide

/-- C6 amended: for a valid start date and interval n ≥ 1 the monthly
step targets month ((m − 1 + n) mod 12) + 1 of year y + (m − 1 + n) div
12 with the same day, and fails exactly when that day does not exist in
the target month or the target year is past the representable maximum
9999. -/
theorem C6_next_month_formula : ∀ (y m d n : Int), 1 ≤ n → validDate ⟨y, m, d⟩ →
    (Schedule.calculate_next_date ⟨.MONTHLY, n⟩ ⟨y, m, d⟩
       = mkDate (y + Int.fdiv (m - 1 + n) 12) (Int.fmod (m - 1 + n) 12 + 1) d)
    ∧ ((Schedule.calculate_next_date ⟨.MONTHLY, n⟩ ⟨y, m, d⟩).isSome ↔
       (d ≤ daysInMonth (y + Int.fdiv (m - 1 + n) 12) (Int.fmod (m - 1 + n) 12 + 1)
        ∧ y + Int.fdiv (m - 1 + n) 12 ≤ 9999)) := by
  intro y m d n hn hv
  have heq : Schedule.calculate_next_date ⟨.MONTHLY, n⟩ ⟨y, m, d⟩
      = mkDate (y + Int.fdiv (m - 1 + n) 12) (Int.fmod (m - 1 + n) 12 + 1) d := rfl
  refine ⟨heq, ?_⟩
  rw [heq]
  unfold validDate at hv
  dsimp only at hv
  obtain ⟨hy1, hy2, hm1, hm2, hd1, hd2⟩ := hv
  have hnm : (0 : Int) ≤ m - 1 + n := by omega
  have hq : 0 ≤ Int.fdiv (m - 1 + n) 12 := Int.fdiv_nonneg hnm (by norm_num)
  have hr1 : 0 ≤ Int.fmod (m - 1 + n) 12 := Int.fmod_nonneg' _ (by norm_num)
  have hr2 : Int.fmod (m - 1 + n) 12 < 12 := Int.fmod_lt_of_pos _ (by norm_num)
  unfold mkDate
  split_ifs with hval
  · simp only [Option.isSome_some, true_iff]
    unfold validDate at hval
    dsimp only at hval
    exact ⟨hval.2.2.2.2.2, hval.2.1⟩
  · simp only [Option.isSome_none, Bool.false_eq_true, false_iff, not_and]
    intro hA hB
    apply hval
    unfold validDate
    dsimp only
    exact ⟨by omega, hB, by omega, by omega, hd1, hA⟩

/-- C6 witness: `C6_next_month_formula` at the claim's own example,
January 31 plus one month. -/
theorem C6_witness :
    ((1 : Int) ≤ 1 ∧ validDate ⟨2025, 1, 31⟩)
    ∧ ((Schedule.calculate_next_date ⟨.MONTHLY, 1⟩ ⟨2025, 1, 31⟩).isSome ↔
       ((31 : Int) ≤ daysInMonth (2025 + Int.fdiv (1 - 1 + 1) 12)
          (Int.fmod (1 - 1 + 1) 12 + 1)
        ∧ 2025 + Int.fdiv (1 - 1 + 1) 12 ≤ 9999)) :=
  ⟨⟨le_refl 1, by decide⟩, (C6_next_month_formula 2025 1 31 1 (le_refl 1) (by decide)).2⟩

/-- C9: the claim says the loop wakes at the earliest local midday
strictly after now. The code always sleeps to 12:00 of the following
day (its own comment reads "the next midday"): started at 09:00 on
2025-01-05 it wakes at 2025-01-06 12:00 although the next local midday
is 2025-01-05 12:00. -/
theorem C9_wake_time :
    nextWakeInstant ⟨⟨2025, 1, 5⟩, 9 * 3600⟩ = ⟨⟨2025, 1, 6⟩, 12 * 3600⟩
    ∧ claimedNextMidday ⟨⟨2025, 1, 5⟩, 9 * 3600⟩ = ⟨⟨2025, 1, 5⟩, 12 * 3600⟩
    ∧ nextWakeInstant ⟨⟨2025, 1, 5⟩, 9 * 3600⟩
        ≠ claimedNextMidday ⟨⟨2025, 1, 5⟩, 9 * 3600⟩ := by
  decide

/-- C10: if every roster entry carries the acknowledging participant's
id, the next-assignee generator yields `none` (it never falls back to
the acknowledger or keeps the current assignee), and the rotation then
calls `fetch_user` with that null id unguarded, failing before any
mutation or save; the `none` branch is unreachable exactly when some
roster entry belongs to another participant. -/
theorem C10_no_other_member :
    (∀ (em : List (String × String)) (u : String),
      next_assignee_id em u = none ↔ ∀ p ∈ em, p.1 = u)
    ∧ (∀ (st : BotState) (pc : Int) (pu pe : String) (mt : List Char),
      st.chore_channel_id = some pc →
      lookupEmoji st.user_emojis pu = some pe →
      (find_chore_by_title st.chores mt).isSome →
      (∀ p ∈ st.user_emojis, p.1 = pu) →
      on_raw_reaction_add st pc pu pe mt = ⟨st, [], some .fetchUserNone⟩) := by
  have hkey : ∀ (em : List (String × String)) (u : String),
      next_assignee_id em u = none ↔ ∀ p ∈ em, p.1 = u := by
    intro em u
    unfold next_assignee_id
    rw [List.find?_eq_none]
    constructor
    · intro h p hp
      have := h p.1 (List.mem_map_of_mem Prod.fst hp)
      simpa using this
    · intro h a ha
      obtain ⟨p, hp, rfl⟩ := List.mem_map.mp ha
      simpa using h p hp
  refine ⟨hkey, ?_⟩
  intro st pc pu pe mt h1 h2 h3 h4
  unfold on_raw_reaction_add
  rw [if_neg (by simp [h1]), if_neg (by simp [h2])]
  obtain ⟨c₀, hc₀⟩ := Option.isSome_iff_exists.mp h3
  rw [hc₀, (hkey st.user_emojis pu).mpr h4]

/-- C10 witness: `C10_no_other_member` on a one-member roster. -/
theorem C10_witness :
    on_raw_reaction_add ⟨[⟨"dishes".data, none, some "A", none⟩], some 1, none,
      [("A", "gA")]⟩ 1 "A" "gA" "dishes".data
    = ⟨⟨[⟨"dishes".data, none, some "A", none⟩], some 1, none, [("A", "gA")]⟩, [],
       some .fetchUserNone⟩ :=
  C10_no_other_member.2 ⟨[⟨"dishes".data, none, some "A", none⟩], some 1, none,
    [("A", "gA")]⟩ 1 "A" "gA" "dishes".data rfl (by decide) (by decide) (by decide)

/-- C7 counterexample: the claim says parse fails with
`InvalidScheduleFormat` for N ≤ 0, but `from_string` applies no
positivity check: `every 0 days` and `every -3 days` both parse. -/
theorem C7_counterexample :
    Schedule.from_string "every 0 days".data = some ⟨.DAYS, 0⟩
    ∧ Schedule.from_string "every -3 days".data = some ⟨.DAYS, -3⟩ := by
  decide

/-- C7 amended: for `every <N> days|months|years` with a nonempty,
space-free, lowercase-fixed token N, the parse result is exactly the
CPython integer parse of N mapped onto EveryNDays/Monthly/Yearly: it
succeeds for every integer N (sign allowed, positivity not checked) and
fails with `InvalidScheduleFormat` exactly when N is not an integer
literal, as the digit examples show. -/
theorem C7_every_number_parse :
    (∀ N : List Char, N ≠ [] → (∀ c ∈ N, isSpace c = false) → pyLower N = N →
      Schedule.from_string (['e','v','e','r','y',' '] ++ N ++ ' ' :: ['d','a','y','s'])
        = (pyInt N).map (fun n => ⟨.DAYS, n⟩)
      ∧ Schedule.from_string (['e','v','e','r','y',' '] ++ N ++ ' ' :: ['m','o','n','t','h','s'])
        = (pyInt N).map (fun n => ⟨.MONTHLY, n⟩)
      ∧ Schedule.from_string (['e','v','e','r','y',' '] ++ N ++ ' ' :: ['y','e','a','r','s'])
        = (pyInt N).map (fun n => ⟨.YEARLY, n⟩))
    ∧ pyInt ['0'] = some 0 ∧ pyInt ['-','3'] = some (-3) ∧ pyInt ['x'] = none :=
  ⟨fun N h1 h2 h3 => from_string_every_core N h1 h2 h3, by decide, by decide, by decide⟩

/-- C7 witness: `C7_every_number_parse` at the token `7`. -/
theorem C7_witness :
    ((['7'] : List Char) ≠ [] ∧ (∀ c ∈ (['7'] : List Char), isSpace c = false)
      ∧ pyLower ['7'] = ['7'])
    ∧ Schedule.from_string (['e','v','e','r','y',' '] ++ ['7'] ++ ' ' :: ['d','a','y','s'])
        = (pyInt ['7']).map (fun n => ⟨.DAYS, n⟩) :=
  ⟨⟨by decide, by decide, by decide⟩,
   (C7_every_number_parse.1 ['7'] (by decide) (by decide) (by decide)).1⟩

/-- C8: canonicalization is stable: whenever a schedule text S parses to
a value c, re-parsing the canonical rendering of c yields c again, so
parse(render(parse(S))) = parse(S) and repeated render/parse is a fixed
point even when render(parse(S)) differs textually from S. -/
theorem C8_roundtrip_stable (S : List Char) (c : Schedule)
    (h : Schedule.from_string S = some c) :
    Schedule.from_string (Schedule.to_string c) = some c := by
  obtain ⟨hd, hwk⟩ := from_string_shape S c h
  obtain ⟨ft, n⟩ := c
  cases ft with
  | DAILY =>
    have h1 : n = 1 := hd rfl
    subst h1
    decide
  | WEEKLY =>
    have h1 : n = 1 := hwk rfl
    subst h1
    decide
  | DAYS =>
    by_cases h2 : n = 2
    · subst h2; decide
    by_cases h3 : n = 3
    · subst h3; decide
    by_cases h15 : n = 15
    · subst h15; decide
    have hts : Schedule.to_string ⟨.DAYS, n⟩
        = ['e','v','e','r','y',' '] ++ intStr n ++ ' ' :: ['d','a','y','s'] := by
      unfold Schedule.to_string
      simp [h2, h3, h15, FrequencyType.value]
    obtain ⟨hne, hprops⟩ := intStr_props n
    have hlo : pyLower (intStr n) = intStr n := by
      unfold pyLower
      calc List.map Char.toLower (intStr n) = List.map id (intStr n) :=
            List.map_congr_left (fun c hc => (hprops c hc).1)
        _ = intStr n := List.map_id _
    rw [hts, (from_string_every_core (intStr n) hne (fun c hc => (hprops c hc).2) hlo).1,
      pyInt_intStr]
    rfl
  | MONTHLY =>
    by_cases h1 : n = 1
    · subst h1; decide
    have hts : Schedule.to_string ⟨.MONTHLY, n⟩
        = ['e','v','e','r','y',' '] ++ intStr n ++ ' ' :: ['m','o','n','t','h','s'] := by
      unfold Schedule.to_string
      simp [h1, FrequencyType.value]
    obtain ⟨hne, hprops⟩ := intStr_props n
    have hlo : pyLower (intStr n) = intStr n := by
      unfold pyLower
      calc List.map Char.toLower (intStr n) = List.map id (intStr n) :=
            List.map_congr_left (fun c hc => (hprops c hc).1)
        _ = intStr n := List.map_id _
    rw [hts, (from_string_every_core (intStr n) hne (fun c hc => (hprops c hc).2) hlo).2.1,
      pyInt_intStr]
    rfl
  | YEARLY =>
    by_cases h1 : n = 1
    · subst h1; decide
    have hts : Schedule.to_string ⟨.YEARLY, n⟩
        = ['e','v','e','r','y',' '] ++ intStr n ++ ' ' :: ['y','e','a','r','s'] := by
      unfold Schedule.to_string
      simp [h1, FrequencyType.value]
    obtain ⟨hne, hprops⟩ := intStr_props n
    have hlo : pyLower (intStr n) = intStr n := by
      unfold pyLower
      calc List.map Char.toLower (intStr n) = List.map id (intStr n) :=
            List.map_congr_left (fun c hc => (hprops c hc).1)
        _ = intStr n := List.map_id _
    rw [hts, (from_string_every_core (intStr n) hne (fun c hc => (hprops c hc).2) hlo).2.2,
      pyInt_intStr]
    rfl

/-- C8 witness: `C8_roundtrip_stable` on the accepted text
`every 5 days`. -/
theorem C8_witness :
    Schedule.from_string "every 5 days".data = some ⟨.DAYS, 5⟩
    ∧ Schedule.from_string (Schedule.to_string ⟨.DAYS, 5⟩) = some ⟨.DAYS, 5⟩ :=
  ⟨by decide, C8_roundtrip_stable "every 5 days".data ⟨.DAYS, 5⟩ (by decide)⟩

end ChoreBot
